import Mathlib

/-!
Verification of the cardity_wasm runtime engine against its specification.

The development shallowly embeds the C++ sources of the repository:

* `src/runtime/logic_engine.cpp` — expression parser/evaluator (`LogicEngine`)
  and the variable resolver (`StateVariableResolver`);
* `src/src/runtime.cpp` — the orchestrator (`CardityRuntime`): `call_method`,
  snapshots, protocol loading, state reset;
* `src/src/state_store.cpp` — the typed state store (`MemoryStateStore`,
  `StateManager`);
* `src/src/car_loader.cpp` — the protocol-document loader and ABI generator
  (`CarLoader`).

Modelling conventions:

* `std::map<std::string, T>` is modelled as a list of key/value pairs kept
  sorted by the C++ byte-wise string order; `mapGet`/`mapSet` mirror
  `find`/`operator[]` with the usual early exit of an ordered map.
* C++ strings are Lean `String`s; the byte-wise comparison of `std::string`
  is `strLtB` below (for ASCII data the code ever compares, byte order and
  code-point order coincide).
* IEEE-754 `double` arithmetic (`std::stod`, `std::to_string(double)`) is not
  exactly representable in a shallow embedding, so the evaluator is
  parameterised by an abstract `FloatModel`; every theorem below is proved for
  all float models, hence in particular for the concrete IEEE implementation.
* Fallible C++ code (exceptions that are caught locally) is folded into total
  functions exactly as the `catch` blocks do; genuinely undefined behaviour
  (integer division by zero in `%`, `const` `operator[]` on a missing JSON
  key) is modelled by an `Option` result whose `none` has no defined outcome.
-/

namespace Cardity

/-! ## Byte-wise string order (`std::string::operator<`) -/

/-- Lexicographic comparison of character lists by code point; this is the
byte-wise `std::string` order restricted to the ASCII data the runtime
compares. -/
def charsLtB : List Char → List Char → Bool
  | [], [] => false
  | [], _ :: _ => true
  | _ :: _, [] => false
  | a :: as, b :: bs =>
    if a.toNat < b.toNat then true
    else if b.toNat < a.toNat then false
    else charsLtB as bs

/-- `a < b` for C++ strings. -/
def strLtB (a b : String) : Bool := charsLtB a.data b.data

theorem charsLtB_irrefl (l : List Char) : charsLtB l l = false := by
  induction l with
  | nil => rfl
  | cons a t ih => simp [charsLtB, ih]

theorem charsLtB_asymm {a b : List Char} (h : charsLtB a b = true) :
    charsLtB b a = false := by
  induction a generalizing b with
  | nil => cases b with
    | nil => simp [charsLtB] at h
    | cons x xs => rfl
  | cons x xs ih =>
    cases b with
    | nil => simp [charsLtB] at h
    | cons y ys =>
      simp only [charsLtB] at h ⊢
      rcases Nat.lt_trichotomy x.toNat y.toNat with h1 | h1 | h1
      · simp [h1, Nat.lt_asymm h1]
      · simp [h1, Nat.lt_irrefl] at h ⊢
        exact ih h
      · simp [h1, Nat.lt_asymm h1] at h

theorem charsLtB_eq_of_not {a b : List Char} (h1 : charsLtB a b = false)
    (h2 : charsLtB b a = false) : a = b := by
  induction a generalizing b with
  | nil => cases b with
    | nil => rfl
    | cons y ys => simp [charsLtB] at h1
  | cons x xs ih =>
    cases b with
    | nil => simp [charsLtB] at h2
    | cons y ys =>
      simp only [charsLtB] at h1 h2
      rcases Nat.lt_trichotomy x.toNat y.toNat with hc | hc | hc
      · simp [hc] at h1
      · have hx : x = y := Char.eq_of_val_eq (UInt32.ext hc)
        subst hx
        simp [Nat.lt_irrefl] at h1 h2
        rw [ih h1 h2]
      · simp [hc] at h2

theorem charsLtB_trans {a b c : List Char} (h1 : charsLtB a b = true)
    (h2 : charsLtB b c = true) : charsLtB a c = true := by
  induction a generalizing b c with
  | nil =>
    cases b with
    | nil => simp [charsLtB] at h1
    | cons y ys =>
      cases c with
      | nil => simp [charsLtB] at h2
      | cons z zs => rfl
  | cons x xs ih =>
    cases b with
    | nil => simp [charsLtB] at h1
    | cons y ys =>
      cases c with
      | nil => simp [charsLtB] at h2
      | cons z zs =>
        simp only [charsLtB] at h1 h2 ⊢
        rcases Nat.lt_trichotomy x.toNat y.toNat with hxy | hxy | hxy
        · rcases Nat.lt_trichotomy y.toNat z.toNat with hyz | hyz | hyz
          · simp [Nat.lt_trans hxy hyz]
          · simp [hyz ▸ hxy]
          · simp [hyz, Nat.lt_asymm hyz] at h2
        · rcases Nat.lt_trichotomy y.toNat z.toNat with hyz | hyz | hyz
          · simp [hxy ▸ hyz]
          · have hxz : x.toNat = z.toNat := hxy.trans hyz
            simp [hxy, Nat.lt_irrefl] at h1
            simp [hyz, Nat.lt_irrefl] at h2
            simp [hxz, Nat.lt_irrefl]
            exact ih h1 h2
          · simp [hyz, Nat.lt_asymm hyz] at h2
        · simp [hxy, Nat.lt_asymm hxy] at h1

theorem strLtB_irrefl (s : String) : strLtB s s = false := charsLtB_irrefl s.data

theorem strLtB_asymm {a b : String} (h : strLtB a b = true) : strLtB b a = false :=
  charsLtB_asymm h

theorem strLtB_eq_of_not {a b : String} (h1 : strLtB a b = false)
    (h2 : strLtB b a = false) : a = b := by
  cases a; cases b
  exact congrArg String.mk (charsLtB_eq_of_not h1 h2)

theorem strLtB_trans {a b c : String} (h1 : strLtB a b = true)
    (h2 : strLtB b c = true) : strLtB a c = true := charsLtB_trans h1 h2

theorem strLtB_of_ne {a b : String} (h : a ≠ b) :
    strLtB a b = true ∨ strLtB b a = true := by
  rcases hab : strLtB a b with _ | _
  · rcases hba : strLtB b a with _ | _
    · exact absurd (strLtB_eq_of_not hab hba) h
    · exact Or.inr rfl
  · exact Or.inl rfl

/-! ## Ordered string map (`std::map<std::string, T>`) -/

/-- `std::map::find` followed by dereference, on the sorted pair-list
representation: stop early once the stored key exceeds the searched one. -/
def mapGet {α : Type} : List (String × α) → String → Option α
  | [], _ => none
  | (k', v') :: rest, k =>
    if strLtB k k' then none
    else if strLtB k' k then mapGet rest k
    else some v'

/-- `std::map::operator[]` followed by assignment: insert at the sorted
position, or overwrite an existing binding. -/
def mapSet {α : Type} : List (String × α) → String → α → List (String × α)
  | [], k, v => [(k, v)]
  | (k', v') :: rest, k, v =>
    if strLtB k k' then (k, v) :: (k', v') :: rest
    else if strLtB k' k then (k', v') :: mapSet rest k v
    else (k, v) :: rest

/-- Keys strictly increase along the list: the invariant `std::map` iteration
order guarantees. -/
def SortedKeys {α : Type} (l : List (String × α)) : Prop :=
  l.Pairwise (fun p q => strLtB p.1 q.1 = true)

theorem mapGet_mapSet_self {α : Type} (l : List (String × α)) (k : String) (v : α) :
    mapGet (mapSet l k v) k = some v := by
  induction l with
  | nil => simp [mapGet, mapSet, strLtB_irrefl]
  | cons p rest ih =>
    obtain ⟨k', v'⟩ := p
    by_cases h1 : strLtB k k' = true
    · simp [mapGet, mapSet, h1, strLtB_irrefl]
    · by_cases h2 : strLtB k' k = true
      · simp [mapGet, mapSet, h1, h2, ih]
      · simp [mapGet, mapSet, h1, h2, strLtB_irrefl]

theorem mapGet_mapSet_ne {α : Type} (l : List (String × α)) {k k' : String}
    (v : α) (hne : k' ≠ k) : mapGet (mapSet l k v) k' = mapGet l k' := by
  induction l with
  | nil =>
    rcases strLtB_of_ne hne with h | h
    · simp [mapGet, mapSet, h]
    · simp [mapGet, mapSet, strLtB_asymm h, h]
  | cons p rest ih =>
    obtain ⟨a, b⟩ := p
    by_cases h1 : strLtB k a = true
    · -- inserted strictly before the head
      rcases strLtB_of_ne hne with h | h
      · have hka : strLtB k' a = true := strLtB_trans h h1
        simp [mapGet, mapSet, h1, h, hka]
      · simp [mapGet, mapSet, h1, strLtB_asymm h, h]
    · by_cases h2 : strLtB a k = true
      · -- head kept, recurse into the tail
        by_cases h3 : strLtB k' a = true
        · simp [mapGet, mapSet, h1, h2, h3]
        · by_cases h4 : strLtB a k' = true
          · simp [mapGet, mapSet, h1, h2, h3, h4, ih]
          · simp [mapGet, mapSet, h1, h2, h3, h4]
      · -- head overwritten: its key equals k
        have hak : a = k := strLtB_eq_of_not (by simpa using h2) (by simpa using h1)
        subst hak
        rcases strLtB_of_ne hne with h | h
        · simp [mapGet, mapSet, h1, h2, h]
        · simp [mapGet, mapSet, h1, h2, h, strLtB_asymm h]

theorem mapGet_of_sorted_mem {α : Type} {l : List (String × α)}
    (hs : SortedKeys l) {k : String} {v : α} (hm : (k, v) ∈ l) :
    mapGet l k = some v := by
  induction l with
  | nil => cases hm
  | cons p rest ih =>
    obtain ⟨a, b⟩ := p
    rcases List.mem_cons.mp hm with h | h
    · obtain ⟨rfl, rfl⟩ := Prod.mk.injEq .. ▸ h
      simp [mapGet, strLtB_irrefl]
    · have hlt : strLtB a k = true := by
        have := (List.pairwise_cons.mp hs).1 (k, v) h
        simpa using this
      have : strLtB k a = false := strLtB_asymm hlt
      simp [mapGet, this, hlt]
      exact ih (List.pairwise_cons.mp hs).2 h

theorem mapSet_of_mapGet_eq {α : Type} {l : List (String × α)} {k : String}
    {v : α} (h : mapGet l k = some v) : mapSet l k v = l := by
  induction l with
  | nil => simp [mapGet] at h
  | cons p rest ih =>
    obtain ⟨a, b⟩ := p
    by_cases h1 : strLtB k a = true
    · simp [mapGet, h1] at h
    · by_cases h2 : strLtB a k = true
      · simp [mapGet, h1, h2] at h
        simp [mapSet, h1, h2, ih h]
      · have hak : a = k := strLtB_eq_of_not (by simpa using h2) (by simpa using h1)
        subst hak
        simp [mapGet, h1, h2] at h
        simp [mapSet, h1, h2, h]

theorem foldl_mapSet_self {α : Type} {base : List (String × α)}
    (items : List (String × α))
    (h : ∀ p ∈ items, mapGet base p.1 = some p.2) :
    items.foldl (fun acc p => mapSet acc p.1 p.2) base = base := by
  induction items with
  | nil => rfl
  | cons p rest ih =>
    have hp : mapGet base p.1 = some p.2 := h p (by simp)
    have hbase : mapSet base p.1 p.2 = base := mapSet_of_mapGet_eq hp
    simp only [List.foldl_cons, hbase]
    exact ih (fun q hq => h q (by simp [hq]))

theorem foldl_mapSet_self_of_sorted {α : Type} {l : List (String × α)}
    (hs : SortedKeys l) :
    l.foldl (fun acc p => mapSet acc p.1 p.2) l = l :=
  foldl_mapSet_self l (fun p hp => by
    obtain ⟨k, v⟩ := p
    exact mapGet_of_sorted_mem hs hp)

/-! ## C++ string primitives used by the engine -/

/-- The characters erased by the engine's trimming code (`" \t"`). -/
def isSpTab (c : Char) : Bool := c == ' ' || c == '\t'

/-- Left brace character, `0x7b`. -/
def lbrace : Char := Char.ofNat 123

/-- Right brace character, `0x7d`. -/
def rbrace : Char := Char.ofNat 125

/-- Drop a predicate-satisfying suffix. -/
def dropRightWhile (p : Char → Bool) (l : List Char) : List Char :=
  (l.reverse.dropWhile p).reverse

/-- `erase(0, find_first_not_of(" \t"))` then
`erase(find_last_not_of(" \t") + 1)`: trim spaces and tabs at both ends. -/
def trimWS (s : String) : String :=
  ⟨dropRightWhile isSpTab (s.data.dropWhile isSpTab)⟩

/-- Split on a delimiter character, as the repeated
`std::getline(stream, line, c)` loops do.  `getline` never yields a trailing
empty field while this function does, but every caller in the engine skips
empty fields, so the two agree on all executions. -/
def splitCharAux (c : Char) : List Char → List Char → List (List Char)
  | [], acc => [acc.reverse]
  | x :: xs, acc =>
    if x == c then acc.reverse :: splitCharAux c xs []
    else splitCharAux c xs (x :: acc)

/-- String-level wrapper of `splitCharAux`. -/
def splitOnChar (c : Char) (s : String) : List String :=
  (splitCharAux c s.data []).map String.mk

/-- `std::string::find(c)`: index of the first occurrence. -/
def findCharIdx (c : Char) (s : String) : Option Nat :=
  s.data.findIdx? (· == c)

/-- Helper for `find_last_of`: rightmost index of `c`, counting from `i`. -/
def findLastAux (c : Char) : List Char → Nat → Option Nat
  | [], _ => none
  | x :: xs, i =>
    match findLastAux c xs (i + 1) with
    | some j => some j
    | none => if x == c then some i else none

/-- `std::string::find_last_of(c)`: index of the last occurrence. -/
def findLastCharIdx (c : Char) (s : String) : Option Nat :=
  findLastAux c s.data 0

/-- `s.substr(pos)` (to the end of the string). -/
def strDrop (n : Nat) (s : String) : String := ⟨s.data.drop n⟩

/-- The first `n` characters of `s`. -/
def strTake (n : Nat) (s : String) : String := ⟨s.data.take n⟩

/-- `s.substr(pos, len)`, clamped at the end of the string as in C++. -/
def csubstr (s : String) (pos len : Nat) : String :=
  ⟨(s.data.drop pos).take len⟩

/-- Character-list prefix test. -/
def charsPrefix : List Char → List Char → Bool
  | [], _ => true
  | _ :: _, [] => false
  | a :: as, b :: bs => a == b && charsPrefix as bs

/-- `s.substr(0, n) == p`, i.e. a prefix test. -/
def strHasPrefix (p s : String) : Bool :=
  charsPrefix p.data s.data

/-- `s.find(c) != npos`. -/
def strContainsChar (s : String) (c : Char) : Bool :=
  s.data.any (· == c)

/-- LogicEngine::string_to_bool: `"true"`/`"1"` are true, `"false"`/`"0"` are
false, otherwise any non-empty string is true. -/
def string_to_bool (value : String) : Bool :=
  if value == "true" || value == "1" then true
  else if value == "false" || value == "0" then false
  else !(value == "")

/-- `value ? "true" : "false"`. -/
def bool_to_string (value : Bool) : String :=
  if value then "true" else "false"

/-- Core of `std::stoi` in base 10: skip whitespace, read an optional sign
and at least one digit, stop at the first non-digit; `none` when no digit is
found (`invalid_argument`) or the value does not fit a 32-bit `int`
(`out_of_range`). -/
def stoiCore (s : List Char) : Option Int :=
  let s1 := s.dropWhile (fun c =>
    c == ' ' || c == '\t' || c == '\n' || c == '\x0b' || c == '\x0c' || c == '\r')
  let sgn : Int × List Char :=
    match s1 with
    | '-' :: r => (-1, r)
    | '+' :: r => (1, r)
    | _ => (1, s1)
  let digits := sgn.2.takeWhile Char.isDigit
  if digits.isEmpty then none
  else
    let n : Nat := digits.foldl (fun a c => a * 10 + (c.toNat - 48)) 0
    let v : Int := sgn.1 * (n : Int)
    if v < -2147483648 ∨ 2147483647 < v then none else some v

/-- LogicEngine::string_to_int: `std::stoi` with every failure caught and
turned into `0`. -/
def string_to_int (value : String) : Int :=
  match stoiCore value.data with
  | some v => v
  | none => 0

/-! ## Expression AST (`logic_engine.h`) -/

/-- `enum class ExpressionType`. -/
inductive ExpressionType where
  | LITERAL
  | VARIABLE
  | BINARY_OP
  | UNARY_OP
  | FUNCTION_CALL
deriving DecidableEq, Repr

/-- `enum class OperatorType`. -/
inductive OperatorType where
  | ADD | SUB | MUL | DIV | MOD
  | EQ | NE | LT | GT | LE | GE
  | AND | OR | NOT | ASSIGN
deriving DecidableEq, Repr

/-- `struct ExpressionNode`: a tag, a payload string, an operator and two
optional children (raw pointers in the C++, null when absent). -/
inductive ExpressionNode where
  | mk (ty : ExpressionType) (value : String) (op : OperatorType)
       (left : Option ExpressionNode) (right : Option ExpressionNode)

/-- Abstract interface for IEEE-754 `double` together with `std::stod` (with
the engine's catch-all returning `0.0`) and `std::to_string`.  The evaluator
below is proved correct for every such model, hence for the concrete
platform implementation; no claim in scope depends on the actual float
semantics. -/
structure FloatModel (F : Type) where
  stod : String → F
  fadd : F → F → F
  fsub : F → F → F
  fmul : F → F → F
  fdiv : F → F → F
  fneg : F → F
  isZero : F → Bool
  fltb : F → F → Bool
  fleb : F → F → Bool
  toStr : F → String

/-- A degenerate float model used to instantiate theorems at concrete
inputs; no theorem's statement depends on its choices. -/
def unitFloatModel : FloatModel Unit where
  stod := fun _ => ()
  fadd := fun _ _ => ()
  fsub := fun _ _ => ()
  fmul := fun _ _ => ()
  fdiv := fun _ _ => ()
  fneg := fun _ => ()
  isZero := fun _ => true
  fltb := fun _ _ => false
  fleb := fun _ _ => true
  toStr := fun _ => "0.000000"

/-! ## StateVariableResolver (`logic_engine.cpp`, lines 384-461)

The resolver owns the parameter frame (`std::map<std::string, std::string>
params`) and a pointer to the `StateManager`.  The orchestrator only ever
stores values through `StateManager::set`, which tags the stored
`StateValue` as `STRING` and keeps the text verbatim, and reads them back
through `get_string`, which returns that text; the runtime-level state is
therefore modelled as a string-to-string map. -/

/-- A `std::map<std::string, std::string>`, sorted by construction. -/
abbrev SMap := List (String × String)

/-- `StateManager::get_string(key, default_value)`: the stored text when the
key is present, the default otherwise. -/
def get_string (st : SMap) (key dflt : String) : String :=
  match mapGet st key with
  | some v => v
  | none => dflt

/-- StateVariableResolver::resolve_variable: `params.`-prefixed names read
the frame, `state.`-prefixed names read the store, bare names try the frame
first and fall back to the store. -/
def resolve_variable (ps st : SMap) (name : String) : String :=
  if strHasPrefix "params." name then
    match mapGet ps (strDrop 7 name) with
    | some v => v
    | none => ""
  else if strHasPrefix "state." name then
    get_string st (strDrop 6 name) ""
  else
    match mapGet ps name with
    | some v => v
    | none => get_string st name ""

/-- StateVariableResolver::set_variable: `state.`-prefixed names write the
store, `params.`-prefixed names write the frame, bare names write the
store. -/
def set_variable (ps st : SMap) (name value : String) : SMap × SMap :=
  if strHasPrefix "state." name then
    (ps, mapSet st (strDrop 6 name) value)
  else if strHasPrefix "params." name then
    (mapSet ps (strDrop 7 name) value, st)
  else
    (ps, mapSet st name value)

/-- The argument-binding loop of `CardityRuntime::call_method` (runtime.cpp,
lines 106-108): `set_parameter(params[i], args[i])` for each declared
parameter, overwriting those entries of the existing frame and leaving all
others untouched. -/
def bindParams (frame : SMap) (names args : List String) : SMap :=
  (names.zip args).foldl (fun acc p => mapSet acc p.1 p.2) frame

/-! ## LogicEngine (`logic_engine.cpp`) -/

/-- LogicEngine::parse_literal: strip one pair of matching outer quotes. -/
def parse_literal (literal : String) : String :=
  if 2 ≤ literal.data.length ∧
      ((literal.data.head? = some (Char.ofNat 34) ∧
        literal.data.getLast? = some (Char.ofNat 34)) ∨
       (literal.data.head? = some (Char.ofNat 39) ∧
        literal.data.getLast? = some (Char.ofNat 39))) then
    csubstr literal 1 (literal.data.length - 2)
  else literal

/-- LogicEngine::parse_variable: strip a `state.`/`params.` prefix and hand
the rest (or the whole name) to the resolver. -/
def parse_variable (ps st : SMap) (var_name : String) : String :=
  if strHasPrefix "state." var_name then
    resolve_variable ps st (strDrop 6 var_name)
  else if strHasPrefix "params." var_name then
    resolve_variable ps st (strDrop 7 var_name)
  else
    resolve_variable ps st var_name

/-- LogicEngine::parse_expression: any `=` makes an assignment whose
left-hand side is the text before the first `=` (a VARIABLE node) and whose
right-hand side is the raw text after it (a LITERAL node); otherwise a name
containing a dot or starting with a letter is a VARIABLE and everything else
a LITERAL.  Binary arithmetic such as `a + b` is never recognised. -/
def parse_expression (expression : String) : ExpressionNode :=
  match findCharIdx '=' expression with
  | some i =>
    .mk .BINARY_OP "" .ASSIGN
      (some (.mk .VARIABLE (strTake i expression) .ADD none none))
      (some (.mk .LITERAL (strDrop (i + 1) expression) .ADD none none))
  | none =>
    if strContainsChar expression '.' ∨
        (0 < expression.data.length ∧
          (expression.data.head?.getD ' ').isAlpha) then
      .mk .VARIABLE expression .ADD none none
    else
      .mk .LITERAL expression .ADD none none

section Engine

variable {F : Type} (fm : FloatModel F)

/-- LogicEngine::execute_binary_op.  The resolver state is threaded because
`ASSIGN` writes through it.  `%` converts both operands with
`string_to_int` and applies the C++ `%` on `int`, which is undefined
behaviour (modelled as `none`) when the divisor converts to `0` or for
`INT_MIN % -1`; every other case is total. -/
def execute_binary_op (ps st : SMap) (op : OperatorType) (left right : String) :
    Option (SMap × SMap × String) :=
  match op with
  | .ADD => some (ps, st, fm.toStr (fm.fadd (fm.stod left) (fm.stod right)))
  | .SUB => some (ps, st, fm.toStr (fm.fsub (fm.stod left) (fm.stod right)))
  | .MUL => some (ps, st, fm.toStr (fm.fmul (fm.stod left) (fm.stod right)))
  | .DIV =>
    if fm.isZero (fm.stod right) then some (ps, st, "0")
    else some (ps, st, fm.toStr (fm.fdiv (fm.stod left) (fm.stod right)))
  | .MOD =>
    let a := string_to_int left
    let b := string_to_int right
    if b = 0 then none
    else if a = -2147483648 ∧ b = -1 then none
    else some (ps, st, toString (Int.tmod a b))
  | .EQ => some (ps, st, bool_to_string (left == right))
  | .NE => some (ps, st, bool_to_string (!(left == right)))
  | .LT => some (ps, st, bool_to_string (fm.fltb (fm.stod left) (fm.stod right)))
  | .GT => some (ps, st, bool_to_string (fm.fltb (fm.stod right) (fm.stod left)))
  | .LE => some (ps, st, bool_to_string (fm.fleb (fm.stod left) (fm.stod right)))
  | .GE => some (ps, st, bool_to_string (fm.fleb (fm.stod right) (fm.stod left)))
  | .AND => some (ps, st, bool_to_string (string_to_bool left && string_to_bool right))
  | .OR => some (ps, st, bool_to_string (string_to_bool left || string_to_bool right))
  | .ASSIGN =>
    let r := set_variable ps st left right
    some (r.1, r.2, right)
  | .NOT => some (ps, st, left)

/-- LogicEngine::execute_unary_op. -/
def execute_unary_op (op : OperatorType) (operand : String) : String :=
  match op with
  | .NOT => bool_to_string (!string_to_bool operand)
  | .SUB => fm.toStr (fm.fneg (fm.stod operand))
  | _ => operand

/-- LogicEngine::evaluate_node: literals and variables read, binary nodes
evaluate left then right then the operator, nodes with missing children fall
through to the empty string. -/
def evaluate_node (ps st : SMap) : ExpressionNode → Option (SMap × SMap × String)
  | .mk .LITERAL v _ _ _ => some (ps, st, parse_literal v)
  | .mk .VARIABLE v _ _ _ => some (ps, st, parse_variable ps st v)
  | .mk .BINARY_OP _ op (some l) (some r) => do
    let (ps1, st1, lv) ← evaluate_node ps st l
    let (ps2, st2, rv) ← evaluate_node ps1 st1 r
    execute_binary_op fm ps2 st2 op lv rv
  | .mk .BINARY_OP _ _ _ _ => some (ps, st, "")
  | .mk .UNARY_OP _ op (some l) _ => do
    let (ps1, st1, v) ← evaluate_node ps st l
    some (ps1, st1, execute_unary_op fm op v)
  | .mk .UNARY_OP _ _ none _ => some (ps, st, "")
  | .mk .FUNCTION_CALL _ _ _ _ => some (ps, st, "")

/-- LogicEngine::evaluate_expression: parse then evaluate. -/
def evaluate_expression (ps st : SMap) (expression : String) :
    Option (SMap × SMap × String) :=
  evaluate_node fm ps st (parse_expression expression)

/-- LogicEngine::execute_assignment: split at the first `=`, trim both
sides, evaluate the right-hand side and write the result through the
resolver.  (With no `=` the C++ prints an error and returns `false` without
mutating anything.) -/
def execute_assignment (ps st : SMap) (assignment : String) :
    Option (SMap × SMap) :=
  match findCharIdx '=' assignment with
  | none => some (ps, st)
  | some i => do
    let var_name := trimWS (strTake i assignment)
    let value_expr := trimWS (strDrop (i + 1) assignment)
    let (ps1, st1, value) ← evaluate_expression fm ps st value_expr
    some (set_variable ps1 st1 var_name value)

/-- Characters stripped from the left of an `if` condition (`" \t("`). -/
def isCondLeft (c : Char) : Bool := c == ' ' || c == '\t' || c == '('

/-- Characters stripped from the right of an `if` condition (`" \t)"`). -/
def isCondRight (c : Char) : Bool := c == ' ' || c == '\t' || c == ')'

/-- The condition cleanup in `execute_method_logic`:
`erase(0, find_first_not_of(" \t("))` and
`erase(find_last_not_of(" \t)") + 1)`. -/
def trimCond (s : String) : String :=
  ⟨dropRightWhile isCondRight (s.data.dropWhile isCondLeft)⟩

/-- One iteration of the inner loop that runs the body of an `if` statement
(`logic_engine.cpp`, lines 171-192): trim, skip empties and `emit`
statements, treat a line containing `=` as an assignment, otherwise record
the expression value as the provisional last result. -/
def runBodyLine (ps st : SMap) (last raw : String) :
    Option (SMap × SMap × String) :=
  let line := trimWS raw
  if line.data.isEmpty then some (ps, st, last)
  else if strHasPrefix "emit" line then some (ps, st, last)
  else if strContainsChar line '=' then do
    let (ps1, st1) ← execute_assignment fm ps st line
    some (ps1, st1, last)
  else do
    let (ps1, st1, v) ← evaluate_expression fm ps st line
    some (ps1, st1, v)

/-- The inner loop over the `;`-separated body of an `if` statement. -/
def runBody : List String → SMap → SMap → String → Option (SMap × SMap × String)
  | [], ps, st, last => some (ps, st, last)
  | b :: bs, ps, st, last => do
    let (ps1, st1, last1) ← runBodyLine fm ps st last b
    runBody bs ps1 st1 last1

/-- One iteration of the outer statement loop of
LogicEngine::execute_method_logic: trim, skip empties, skip `emit`, handle
`if (...) { ... }` by locating the braces and running the body when the
condition is true, treat a line containing `=` as an assignment, otherwise
evaluate the expression as the new last result.  (The outer loop has
already split the method body on every `;`, so an `if` body here never
contains more than one statement.) -/
def runLine (ps st : SMap) (last raw : String) : Option (SMap × SMap × String) :=
  let line := trimWS raw
  if line.data.isEmpty then some (ps, st, last)
  else if strHasPrefix "emit" line then some (ps, st, last)
  else if strHasPrefix "if" line then
    match findCharIdx lbrace line, findLastCharIdx rbrace line with
    | some ob, some cb => do
      let condition := trimCond (csubstr line 2 (ob - 2))
      let body := csubstr line (ob + 1)
        (if ob < cb then cb - ob - 1 else line.data.length)
      let (ps1, st1, cv) ← evaluate_expression fm ps st condition
      if string_to_bool cv then runBody fm (splitOnChar ';' body) ps1 st1 last
      else some (ps1, st1, last)
    | _, _ => some (ps, st, last)
  else if strContainsChar line '=' then do
    let (ps1, st1) ← execute_assignment fm ps st line
    some (ps1, st1, last)
  else evaluate_expression fm ps st line

/-- The outer statement loop of LogicEngine::execute_method_logic. -/
def runLines : List String → SMap → SMap → String → Option (SMap × SMap × String)
  | [], ps, st, last => some (ps, st, last)
  | l :: ls, ps, st, last => do
    let (ps1, st1, last1) ← runLine fm ps st last l
    runLines ls ps1 st1 last1

/-- LogicEngine::execute_method_logic: split the body on `;` and run the
statement loop with an empty last result.  `emit` statements are skipped
(«暂时跳过», i.e. temporarily) and never reach the event log. -/
def execute_method_logic (ps st : SMap) (logic : String) :
    Option (SMap × SMap × String) :=
  runLines fm (splitOnChar ';' logic) ps st ""

end Engine

/-! ## JSON values (`nlohmann::json`)

Objects keep their fields sorted by key, as `nlohmann::json` does; numbers
are modelled as integers, which covers every number the engine reads or
writes. -/

/-- A JSON value. -/
inductive Json where
  | null
  | str (s : String)
  | num (n : Int)
  | bool (b : Bool)
  | arr (elems : List Json)
  | obj (fields : List (String × Json))

/-- `j.get<int>()`: only a number converts, anything else throws. -/
def asInt : Json → Option Int
  | .num n => some n
  | _ => none

/-- `j.get<std::string>()`: only a string converts, anything else throws. -/
def asStr : Json → Option String
  | .str s => some s
  | _ => none

/-- `j.contains(key)`: `false` on every non-object. -/
def jcontains (j : Json) (key : String) : Bool :=
  match j with
  | .obj fields => (mapGet fields key).isSome
  | _ => false

/-- `j[key]` on a `const` object known to contain `key`. -/
def jmember (j : Json) (key : String) : Option Json :=
  match j with
  | .obj fields => mapGet fields key
  | _ => none

/-- `j.items()` as used in the structured-binding loops: objects yield their
sorted fields, arrays yield index keys `"0"`, `"1"`, …, `null` yields
nothing, and on a primitive the iterator's `key()` throws
(`invalid_iterator`), modelled as `none`. -/
def jitems : Json → Option (List (String × Json))
  | .obj fields => some fields
  | .arr elems => some ((List.range elems.length).zip elems |>.map
      (fun p => (toString p.1, p.2)))
  | .null => some []
  | _ => none

/-- Range-`for` over a JSON value: arrays yield their elements, objects
their values, `null` nothing, and a primitive yields itself once. -/
def jiterElems : Json → List Json
  | .arr elems => elems
  | .obj fields => fields.map Prod.snd
  | .null => []
  | j => [j]

/-! ## MemoryStateStore (`state_store.cpp`) -/

/-- `struct StateValue`: the `ValueType` tag is stored as the integer the
persistence format uses (`static_cast<int>`), `STRING = 0`. -/
structure StateValue where
  type : Int
  value : String
deriving DecidableEq, Repr

/-- The store's `std::map<std::string, StateValue>`. -/
abbrev VMap := List (String × StateValue)

/-- `StateValue::from_string`: a `STRING`-tagged value. -/
def StateValue.from_string (val : String) : StateValue := ⟨0, val⟩

/-- MemoryStateStore::create_snapshot: a JSON object
`{state: {k: {type, value}}, timestamp}` (keys shown in the sorted order
`nlohmann::json` serialises them in). -/
def store_create_snapshot (store : VMap) (ts : String) : Json :=
  .obj [("state", .obj (store.map (fun p =>
            (p.1, Json.obj [("type", .num p.2.type), ("value", .str p.2.value)])))),
        ("timestamp", .str ts)]

/-- The entry loop of MemoryStateStore::restore_from_snapshot, started after
`state.clear()`.  A `type` or `value` field of the wrong JSON type makes
`get` throw; the `catch` turns that into `false` with whatever had been
rebuilt so far.  A missing `type`/`value` field or a non-object entry makes
the `const` `operator[]` dereference a missing key, which is undefined
behaviour (`none`). -/
def restoreEntries : VMap → List (String × Json) → Option (Bool × VMap)
  | acc, [] => some (true, acc)
  | acc, (k, ej) :: rest =>
    match ej with
    | .obj efields =>
      match mapGet efields "type" with
      | none => none
      | some tj =>
        match asInt tj with
        | none => some (false, acc)
        | some t =>
          match mapGet efields "value" with
          | none => none
          | some vj =>
            match asStr vj with
            | none => some (false, acc)
            | some v => restoreEntries (mapSet acc k ⟨t, v⟩) rest
    | _ => none

/-- MemoryStateStore::restore_from_snapshot: missing top-level `state`
returns `false` with the store untouched; otherwise the store is cleared
first and rebuilt entry by entry.  On a primitive `state` member the
iterator's `key()` throws after the clear, leaving an empty store. -/
def store_restore_from_snapshot (store : VMap) (snapshot : Json) :
    Option (Bool × VMap) :=
  match snapshot with
  | .obj fields =>
    match mapGet fields "state" with
    | none => some (false, store)
    | some stateJson =>
      match jitems stateJson with
      | none => some (false, [])
      | some entries => restoreEntries [] entries
  | _ => some (false, store)

/-! ## CarLoader (`car_loader.cpp`, `car_loader.h`) -/

/-- `struct StateVariable`. -/
structure StateVariable where
  type : String
  default_value : String
deriving DecidableEq, Repr

/-- `struct Method`. -/
structure Method where
  params : List String
  logic : String
  returns : String
deriving DecidableEq, Repr

/-- `struct Event`. -/
structure Event where
  params : List String
deriving DecidableEq, Repr

/-- `struct CPL`. -/
structure CPL where
  state : List (String × StateVariable)
  methods : List (String × Method)
  events : List (String × Event)
  owner : String

/-- `struct CarProtocol`. -/
structure CarProtocol where
  p : String
  op : String
  protocol : String
  version : String
  cpl : CPL
  abi : Json
  hash : String
  signature : String

/-- `j.value(key, default)` for string results: the default when the key is
missing, the stored string when it is present with the right type, and a
thrown `type_error` (`none`) otherwise — also when `j` is not an object. -/
def jvalueStr (j : Json) (key dflt : String) : Option String :=
  match j with
  | .obj fields =>
    match mapGet fields key with
    | none => some dflt
    | some (.str s) => some s
    | some _ => none
  | _ => none

/-- `method_json["params"].get<std::vector<std::string>>()`. -/
def getStrVec (j : Json) : Option (List String) :=
  match j with
  | .arr elems => elems.foldr (fun e acc => do
      let s ← asStr e
      let rest ← acc
      some (s :: rest)) (some [])
  | _ => none

/-- CarLoader::parse_state. -/
def parse_state (state_json : Json) :
    Option (List (String × StateVariable)) := do
  let items ← jitems state_json
  items.foldlM (fun acc p => do
    let ty ← jvalueStr p.2 "type" "string"
    let dv ← jvalueStr p.2 "default" ""
    some (mapSet acc p.1 ⟨ty, dv⟩)) []

/-- The `logic` field of a method declaration: an array is joined with
`"; "`, a plain string is taken as is, anything else throws. -/
def parseLogicField : Json → Option String
  | .arr elems => elems.foldlM (fun acc e => do
      let s ← asStr e
      some (if acc == "" then s else acc ++ "; " ++ s)) ""
  | .str s => some s
  | _ => none

/-- The `returns` field of a method declaration: from an object take the
`expr` member when present (else leave the empty string), from a string the
string itself; anything else throws. -/
def parseReturnsField : Json → Option String
  | .obj fields =>
    match mapGet fields "expr" with
    | none => some ""
    | some e => asStr e
  | .str s => some s
  | _ => none

/-- CarLoader::parse_methods. -/
def parse_methods (methods_json : Json) : Option (List (String × Method)) := do
  let items ← jitems methods_json
  items.foldlM (fun acc p => do
    let params ←
      if jcontains p.2 "params" then
        match jmember p.2 "params" with
        | some pj => getStrVec pj
        | none => none
      else some []
    let logic ←
      if jcontains p.2 "logic" then
        match jmember p.2 "logic" with
        | some lj => parseLogicField lj
        | none => none
      else some ""
    let returns ←
      if jcontains p.2 "returns" then
        match jmember p.2 "returns" with
        | some rj => parseReturnsField rj
        | none => none
      else some ""
    some (mapSet acc p.1 ⟨params, logic, returns⟩)) []

/-- One element of an event's `params` list: objects contribute their
`name` member (a non-string `name` throws), strings contribute themselves,
everything else is skipped. -/
def parseEventParam (j : Json) (acc : List String) : Option (List String) :=
  match j with
  | .obj fields =>
    match mapGet fields "name" with
    | some nj => do
      let s ← asStr nj
      some (acc ++ [s])
    | none => some acc
  | .str s => some (acc ++ [s])
  | _ => some acc

/-- CarLoader::parse_events. -/
def parse_events (events_json : Json) : Option (List (String × Event)) := do
  let items ← jitems events_json
  items.foldlM (fun acc p => do
    let params ←
      if jcontains p.2 "params" then
        match jmember p.2 "params" with
        | some pj => (jiterElems pj).foldlM (fun a e => parseEventParam e a) []
        | none => none
      else some []
    some (mapSet acc p.1 ⟨params⟩)) []

/-- CarLoader::generate_abi: the derived ABI object, a pure function of the
CPL, the protocol name and the version (field order shown sorted, as the
JSON object stores it). -/
def generate_abi (cpl : CPL) (protocol_name version : String) : Json :=
  .obj [("events", .arr (cpl.events.map (fun p =>
            Json.obj [("name", .str p.1),
                      ("params", .arr (p.2.params.map Json.str))]))),
        ("methods", .arr (cpl.methods.map (fun p =>
            Json.obj ([("name", .str p.1),
                       ("params", .arr (p.2.params.map Json.str))] ++
              (if p.2.returns == "" then [] else [("returns", .str p.2.returns)]))))),
        ("protocol", .str protocol_name),
        ("state", .arr (cpl.state.map (fun p =>
            Json.obj [("default", .str p.2.default_value),
                      ("name", .str p.1),
                      ("type", .str p.2.type)]))),
        ("version", .str version)]

/-- CarLoader::validate_protocol. -/
def validate_protocol (protocol : CarProtocol) : Bool :=
  protocol.p == "cardinals" &&
  protocol.op == "deploy" &&
  !(protocol.protocol == "") &&
  !(protocol.version == "") &&
  !(protocol.cpl.owner == "") &&
  protocol.cpl.state.all (fun p => !(p.2.type == "")) &&
  protocol.cpl.methods.all (fun p => !(p.2.logic == "" && p.2.returns == ""))

/-- The CPL-parsing block of CarLoader::load_from_json (`if
(j.contains("cpl")) ...`): parse the `state`, `methods` and `events`
sections and the `owner`; without a `cpl` member the protocol keeps the
default-constructed empty CPL. -/
def parse_cpl (j : Json) : Option CPL :=
  if jcontains j "cpl" then
    match jmember j "cpl" with
    | some cj => do
      let state ←
        if jcontains cj "state" then
          match jmember cj "state" with
          | some sj => parse_state sj
          | none => none
        else some []
      let methods ←
        if jcontains cj "methods" then
          match jmember cj "methods" with
          | some mj => parse_methods mj
          | none => none
        else some []
      let events ←
        if jcontains cj "events" then
          match jmember cj "events" with
          | some ej => parse_events ej
          | none => none
        else some []
      let owner ← jvalueStr cj "owner" ""
      some ⟨state, methods, events, owner⟩
    | none => none
  else some ⟨[], [], [], ""⟩

/-- CarLoader::load_from_json, applied to an already-parsed JSON document.
`hasher` abstracts `calculate_hash` (a `std::hash` digest of the dumped
document — deterministic but implementation-defined, and used only when the
document carries no `hash` of its own). -/
def load_from_json (hasher : Json → String) (j : Json) : Option CarProtocol :=
  match jvalueStr j "p" "" with
  | none => none
  | some p =>
  match jvalueStr j "op" "" with
  | none => none
  | some op =>
  match jvalueStr j "protocol" "" with
  | none => none
  | some protocol =>
  match jvalueStr j "version" "" with
  | none => none
  | some version =>
  match jvalueStr j "hash" "" with
  | none => none
  | some hash0 =>
  match jvalueStr j "signature" "" with
  | none => none
  | some signature =>
  match parse_cpl j with
  | none => none
  | some cpl =>
    some ⟨p, op, protocol, version, cpl, generate_abi cpl protocol version,
          if hash0 == "" then hasher j else hash0, signature⟩

/-! ## CardityRuntime (`runtime.cpp`, `runtime.h`) -/

/-- `struct EventInstance`. -/
structure EventInstance where
  name : String
  values : List String
  timestamp : String
deriving DecidableEq, Repr

/-- `struct MethodResult`; `success` defaults to `false` and the remaining
fields to empty. -/
structure MethodResult where
  success : Bool
  return_value : String
  events : List EventInstance
  error_message : String
deriving Repr

/-- `struct Snapshot`.  The `state` member holds `get_all_state()`, a JSON
object of the stored texts, modelled as the string map it prints. -/
structure Snapshot where
  protocol_name : String
  version : String
  state : SMap
  event_log : List EventInstance
  timestamp : String
  block_height : String

/-- The orchestrator's mutable parts: the loaded protocol, the state
manager's store, the resolver's parameter frame and the global event log.
The orchestrator writes state exclusively through `StateManager::set`
(`STRING`-tagged, text kept verbatim), so the store appears here as a
string-to-string map. -/
structure Runtime where
  protocol : Option CarProtocol
  state : SMap
  params : SMap
  eventLog : List EventInstance

/-- CardityRuntime::get_state with the default `""` second argument. -/
def Runtime.get_state (rt : Runtime) (key : String) : String :=
  get_string rt.state key ""

/-- CardityRuntime::get_protocol_name: empty when no protocol is loaded. -/
def Runtime.get_protocol_name (rt : Runtime) : String :=
  match rt.protocol with
  | none => ""
  | some pr => pr.protocol

/-- CardityRuntime::reset_state: a no-op without a protocol, otherwise
clear the store and reinstall every declared default. -/
def reset_state (rt : Runtime) : Runtime :=
  match rt.protocol with
  | none => rt
  | some pr =>
    { rt with
      state := pr.cpl.state.foldl (fun acc p => mapSet acc p.1 p.2.default_value) [] }

/-- CardityRuntime::load_protocol_from_json: the `protocol` member is
overwritten by the load result before any check, so a failed load always
drops the previous protocol; `reset_state` runs only after successful
validation.  `none` input stands for bytes `json::parse` rejects. -/
def load_protocol_from_json (hasher : Json → String) (rt : Runtime)
    (input : Option Json) : Bool × Runtime :=
  let loaded := input.bind (load_from_json hasher)
  let rt1 := { rt with protocol := loaded }
  match loaded with
  | none => (false, rt1)
  | some pr =>
    if validate_protocol pr then (true, reset_state rt1) else (false, rt1)

/-- CardityRuntime::create_snapshot; the timestamp comes from the wall
clock and is passed in explicitly. -/
def create_snapshot (rt : Runtime) (ts block_height : String) : Snapshot :=
  { protocol_name :=
      match rt.protocol with
      | some pr => pr.protocol
      | none => ""
    version :=
      match rt.protocol with
      | some pr => pr.version
      | none => ""
    state := rt.state
    event_log := rt.eventLog
    timestamp := ts
    block_height := block_height }

/-- CardityRuntime::restore_from_snapshot: write every snapshot entry into
the store (without clearing it) and replace the event log. -/
def restore_from_snapshot (rt : Runtime) (snapshot : Snapshot) : Bool × Runtime :=
  (true,
    { rt with
      state := snapshot.state.foldl (fun acc p => mapSet acc p.1 p.2) rt.state
      eventLog := snapshot.event_log })

/-- CardityRuntime::call_method (runtime.cpp, lines 78-129): look the method
up, reject an argument count different from the declared parameter count
before touching anything, otherwise bind the declared parameters into the
resolver frame, run the body, and evaluate the `returns` expression when one
is declared.  The event log and the result's `events` list are never
touched.  `none` marks the undefined-behaviour path of the `%` operator,
which `parse_expression` never constructs. -/
def call_method {F : Type} (fm : FloatModel F) (rt : Runtime)
    (method_name : String) (args : List String) : Option (MethodResult × Runtime) :=
  match rt.protocol with
  | none =>
    some ({ success := false, return_value := "", events := [],
            error_message := "No protocol loaded" }, rt)
  | some pr =>
    match mapGet pr.cpl.methods method_name with
    | none =>
      some ({ success := false, return_value := "", events := [],
              error_message := "Method not found: " ++ method_name }, rt)
    | some m =>
      if args.length ≠ m.params.length then
        some ({ success := false, return_value := "", events := [],
                error_message := "Parameter count mismatch. Expected " ++
                  toString m.params.length ++ ", got " ++ toString args.length }, rt)
      else
        match (if m.logic ≠ "" then
            execute_method_logic fm (bindParams rt.params m.params args) rt.state m.logic
          else some (bindParams rt.params m.params args, rt.state, "")) with
        | none => none
        | some (ps1, st1, lastv) =>
          match (if m.returns ≠ "" then evaluate_expression fm ps1 st1 m.returns
            else some (ps1, st1, if m.logic ≠ "" then lastv else "")) with
          | none => none
          | some (ps2, st2, rv) =>
            some ({ success := true, return_value := rv, events := [],
                    error_message := "" },
                  { rt with state := st2, params := ps2 })

/-- The runtime state right after a successful `load_protocol*` call:
protocol installed, defaults materialised, empty frame and event log. -/
def freshRuntime (pr : CarProtocol) : Runtime :=
  reset_state { protocol := some pr, state := [], params := [], eventLog := [] }

/-! ## Concrete protocols used by the specification's scenarios -/

/-- The CPL of scenario S1 (`hello`): `msg` with default `""`,
`set_msg(new_msg)` and `get_msg()`. -/
def helloCPL : CPL :=
  { state := [("msg", ⟨"string", ""⟩)]
    methods :=
      [("get_msg", ⟨[], "", "state.msg"⟩),
       ("set_msg", ⟨["new_msg"], "state.msg = params.new_msg", ""⟩)]
    events := []
    owner := "owner" }

/-- The S1 protocol document after loading. -/
def helloProtocol : CarProtocol :=
  { p := "cardinals", op := "deploy", protocol := "hello", version := "1.0"
    cpl := helloCPL, abi := generate_abi helloCPL "hello" "1.0"
    hash := "h", signature := "" }

/-- The CPL of scenario S2 (`counter`): `count` with default `"0"`,
`increment()` with body `state.count = state.count + 1`, and `get_count()`
returning `state.count`. -/
def counterCPL : CPL :=
  { state := [("count", ⟨"int", "0"⟩)]
    methods :=
      [("get_count", ⟨[], "", "state.count"⟩),
       ("increment", ⟨[], "state.count = state.count + 1", ""⟩)]
    events := []
    owner := "owner" }

/-- The S2 protocol document after loading. -/
def counterProtocol : CarProtocol :=
  { p := "cardinals", op := "deploy", protocol := "counter", version := "1.0"
    cpl := counterCPL, abi := generate_abi counterCPL "counter" "1.0"
    hash := "h", signature := "" }

/-- The CPL of scenario S3 (`bump`): `n` with default `"0"`, event
`Overflow(limit)`, and `bump()` whose body increments `n` and emits
`Overflow("2")` once `n` exceeds 2. -/
def bumpCPL : CPL :=
  { state := [("n", ⟨"int", "0"⟩)]
    methods :=
      [("bump",
        ⟨[], "state.n = state.n + 1; if (state.n > 2) \x7b emit Overflow(\x222\x22) \x7d", ""⟩)]
    events := [("Overflow", ⟨["limit"]⟩)]
    owner := "owner" }

/-- The S3 protocol document after loading. -/
def bumpProtocol : CarProtocol :=
  { p := "cardinals", op := "deploy", protocol := "bump", version := "1.0"
    cpl := bumpCPL, abi := generate_abi bumpCPL "bump" "1.0"
    hash := "h", signature := "" }

/-- The CPL of scenario S6 (`who`): state `x` with default `"store"` and
method `who(x)` returning `x`. -/
def whoCPL : CPL :=
  { state := [("x", ⟨"string", "store"⟩)]
    methods := [("who", ⟨["x"], "", "x"⟩)]
    events := []
    owner := "owner" }

/-- The S6 protocol document after loading. -/
def whoProtocol : CarProtocol :=
  { p := "cardinals", op := "deploy", protocol := "who", version := "1.0"
    cpl := whoCPL, abi := generate_abi whoCPL "who" "1.0"
    hash := "h", signature := "" }

/-- A protocol with a parameterised method `who(x)` and a parameterless
method `peek()` returning `params.x`, used to probe the lifetime of the
parameter frame across calls. -/
def whoPeekCPL : CPL :=
  { state := []
    methods :=
      [("peek", ⟨[], "", "params.x"⟩),
       ("who", ⟨["x"], "", "x"⟩)]
    events := []
    owner := "owner" }

/-- The frame-probing protocol document after loading. -/
def whoPeekProtocol : CarProtocol :=
  { p := "cardinals", op := "deploy", protocol := "whoPeek", version := "1.0"
    cpl := whoPeekCPL, abi := generate_abi whoPeekCPL "whoPeek" "1.0"
    hash := "h", signature := "" }

/-! ## Supporting lemmas -/

theorem mapSet_append_of_lt {α : Type} {acc : List (String × α)} {k : String}
    (v : α) (h : ∀ p ∈ acc, strLtB p.1 k = true) :
    mapSet acc k v = acc ++ [(k, v)] := by
  induction acc with
  | nil => rfl
  | cons p rest ih =>
    obtain ⟨a, b⟩ := p
    have ha : strLtB a k = true := h (a, b) (by simp)
    simp [mapSet, strLtB_asymm ha, ha]
    exact ih (fun q hq => h q (by simp [hq]))

theorem foldl_mapSet_of_sorted_ext {α : Type} {l : List (String × α)}
    (hl : SortedKeys l) :
    ∀ acc : List (String × α), (∀ p ∈ acc, ∀ q ∈ l, strLtB p.1 q.1 = true) →
      l.foldl (fun a p => mapSet a p.1 p.2) acc = acc ++ l := by
  induction l with
  | nil => intro acc _; simp
  | cons p rest ih =>
    intro acc hacc
    obtain ⟨k, v⟩ := p
    have hset : mapSet acc k v = acc ++ [(k, v)] :=
      mapSet_append_of_lt v (fun q hq => hacc q hq (k, v) (by simp))
    have hrest := ih (List.pairwise_cons.mp hl).2 (acc ++ [(k, v)]) ?_
    · simp [hset, hrest]
    · intro q hq r hr
      rcases List.mem_append.mp hq with h1 | h1
      · exact hacc q h1 r (by simp [hr])
      · simp at h1
        subst h1
        exact (List.pairwise_cons.mp hl).1 r hr

theorem foldl_mapSet_rebuild {α : Type} {l : List (String × α)}
    (hl : SortedKeys l) :
    l.foldl (fun a p => mapSet a p.1 p.2) [] = l := by
  simpa using foldl_mapSet_of_sorted_ext hl [] (by simp)

theorem mapGet_bindParams_not_mem (frame : SMap) (names args : List String)
    {x : String} (hx : x ∉ names) :
    mapGet (bindParams frame names args) x = mapGet frame x := by
  induction names generalizing frame args with
  | nil => simp [bindParams]
  | cons n ns ih =>
    cases args with
    | nil => simp [bindParams]
    | cons a as =>
      have hxn : x ≠ n := fun h => hx (h ▸ List.mem_cons_self n ns)
      have hxs : x ∉ ns := fun h => hx (List.mem_cons_of_mem n h)
      have : bindParams frame (n :: ns) (a :: as) = bindParams (mapSet frame n a) ns as := by
        simp [bindParams]
      rw [this, ih (mapSet frame n a) as hxs, mapGet_mapSet_ne frame a hxn]

theorem optionBind_isSome {α β : Type} {x : Option α} {f : α → Option β}
    (hx : x.isSome) (hf : ∀ a, (f a).isSome) : (x.bind f).isSome := by
  cases x with
  | none => simp at hx
  | some a => exact hf a

theorem optionIte_isSome {α : Type} {c : Prop} [Decidable c] {a b : Option α}
    (ha : a.isSome) (hb : b.isSome) : (if c then a else b).isSome := by
  split <;> assumption

theorem evaluate_expression_isSome {F : Type} (fm : FloatModel F)
    (ps st : SMap) (e : String) : (evaluate_expression fm ps st e).isSome := by
  unfold evaluate_expression
  cases h : findCharIdx '=' e with
  | some i => simp [parse_expression, h, evaluate_node, execute_binary_op]
  | none =>
    simp only [parse_expression, h]
    split <;> simp [evaluate_node]

theorem execute_assignment_isSome {F : Type} (fm : FloatModel F)
    (ps st : SMap) (a : String) : (execute_assignment fm ps st a).isSome := by
  unfold execute_assignment
  cases h : findCharIdx '=' a with
  | none => simp
  | some i =>
    exact optionBind_isSome (evaluate_expression_isSome fm ps st _) (fun _ => rfl)

theorem runBodyLine_isSome {F : Type} (fm : FloatModel F)
    (ps st : SMap) (last raw : String) : (runBodyLine fm ps st last raw).isSome := by
  simp only [runBodyLine]
  split
  · rfl
  · split
    · rfl
    · split
      · exact optionBind_isSome (execute_assignment_isSome fm ps st _) (fun _ => rfl)
      · exact optionBind_isSome (evaluate_expression_isSome fm ps st _) (fun _ => rfl)

theorem runBody_isSome {F : Type} (fm : FloatModel F) (bs : List String)
    (ps st : SMap) (last : String) : (runBody fm bs ps st last).isSome := by
  induction bs generalizing ps st last with
  | nil => rfl
  | cons b rest ih =>
    exact optionBind_isSome (runBodyLine_isSome fm ps st last b)
      (fun a => ih a.1 a.2.1 a.2.2)

theorem runLine_isSome {F : Type} (fm : FloatModel F)
    (ps st : SMap) (last raw : String) : (runLine fm ps st last raw).isSome := by
  simp only [runLine]
  split
  · rfl
  · split
    · rfl
    · split
      · split
        · apply optionBind_isSome (evaluate_expression_isSome fm ps st _)
          intro a
          apply optionIte_isSome
          · apply runBody_isSome
          · rfl
        · rfl
      · split
        · exact optionBind_isSome (execute_assignment_isSome fm ps st _) (fun _ => rfl)
        · exact evaluate_expression_isSome fm ps st _

theorem runLines_isSome {F : Type} (fm : FloatModel F) (ls : List String)
    (ps st : SMap) (last : String) : (runLines fm ls ps st last).isSome := by
  induction ls generalizing ps st last with
  | nil => rfl
  | cons l rest ih =>
    exact optionBind_isSome (runLine_isSome fm ps st last l)
      (fun a => ih a.1 a.2.1 a.2.2)

theorem execute_method_logic_isSome {F : Type} (fm : FloatModel F)
    (ps st : SMap) (logic : String) :
    (execute_method_logic fm ps st logic).isSome :=
  runLines_isSome fm (splitOnChar ';' logic) ps st ""

theorem call_method_isSome {F : Type} (fm : FloatModel F) (rt : Runtime)
    (method_name : String) (args : List String) :
    (call_method fm rt method_name args).isSome := by
  unfold call_method
  split
  · rfl
  · split
    · rfl
    · split
      · rfl
      · rename_i pr hp m hm ha
        have h1 : (if m.logic ≠ "" then
            execute_method_logic fm (bindParams rt.params m.params args) rt.state m.logic
          else some (bindParams rt.params m.params args, rt.state, "")).isSome :=
          optionIte_isSome (execute_method_logic_isSome fm _ _ _) rfl
        split
        · rename_i heq
          rw [heq] at h1
          simp at h1
        · rename_i ps1 st1 lastv heq
          have h2 : (if m.returns ≠ "" then evaluate_expression fm ps1 st1 m.returns
            else some (ps1, st1, if m.logic ≠ "" then lastv else "")).isSome :=
            optionIte_isSome (evaluate_expression_isSome fm _ _ _) rfl
          split
          · rename_i heq2
            rw [heq2] at h2
            simp at h2
          · rfl

/-- CardityRuntime::set_state: administrative direct write through
`StateManager::set`. -/
def set_state (rt : Runtime) (key value : String) : Runtime :=
  { rt with state := mapSet rt.state key value }

/-- A stand-in for `CarLoader::calculate_hash` used to instantiate theorems
at concrete inputs; the theorems themselves hold for every hasher. -/
def trivialHasher : Json → String := fun _ => ""

/-- A minimal protocol document (already parsed) that loads and validates:
`{p: "cardinals", op: "deploy", protocol: "demo", version: "1",
cpl: {owner: "me"}}`. -/
def demoDoc : Json :=
  .obj [("cpl", .obj [("owner", .str "me")]),
        ("op", .str "deploy"),
        ("p", .str "cardinals"),
        ("protocol", .str "demo"),
        ("version", .str "1")]

/-- The protocol `demoDoc` loads to (under `trivialHasher`). -/
def demoProtocol : CarProtocol :=
  { p := "cardinals", op := "deploy", protocol := "demo", version := "1"
    cpl := ⟨[], [], [], "me"⟩
    abi := generate_abi ⟨[], [], [], "me"⟩ "demo" "1"
    hash := "", signature := "" }

/-- A document that parses but fails validation: its `cpl.owner` is empty
while its `protocol` field is `"bad"`. -/
def badOwnerDoc : Json :=
  .obj [("cpl", .obj [("owner", .str "")]),
        ("op", .str "deploy"),
        ("p", .str "cardinals"),
        ("protocol", .str "bad"),
        ("version", .str "1")]

/-- The (invalid) protocol `badOwnerDoc` loads to. -/
def badOwnerProtocol : CarProtocol :=
  { p := "cardinals", op := "deploy", protocol := "bad", version := "1"
    cpl := ⟨[], [], [], ""⟩
    abi := generate_abi ⟨[], [], [], ""⟩ "bad" "1"
    hash := "", signature := "" }

/-! ## Claims -/

/-- C1.  The claim asserts that for the S2 counter protocol three successful
`call_method("increment", [])` invocations followed by
`call_method("get_count", [])` return `"3"` (or `"3.000000"`), the
right-hand side of the assignment being parsed as a float addition.  The
code does something else: `parse_expression` never builds a `+` node, so the
right-hand side `state.count + 1` is treated as one variable reference whose
resolver lookup (`count + 1`) misses and yields `""`; each increment
therefore stores the empty string and `get_count` returns `""`, for every
float model.  The second conjunct isolates the defect: evaluating
`state.count + 1` against a store where `count` is `"0"` already returns
`""` without touching the store. -/
theorem c1_counter_three_increments_return_empty {F : Type} (fm : FloatModel F) :
    (((call_method fm (freshRuntime counterProtocol) "increment" []).bind fun r1 =>
      (call_method fm r1.2 "increment" []).bind fun r2 =>
      (call_method fm r2.2 "increment" []).bind fun r3 =>
      (call_method fm r3.2 "get_count" []).map fun r4 =>
        (r4.1.success, r4.1.return_value, r4.2.get_state "count")) =
      some (true, "", "")) ∧
    evaluate_expression fm [] [("count", "0")] "state.count + 1" =
      some ([], [("count", "0")], "") :=
  ⟨rfl, rfl⟩

/-- C2.  The claim asserts that `emit` statements append events to the
global log and surface them in the `MethodResult`, and in particular that
after the third `bump()` of the S3 protocol the per-call events list holds
exactly one `Overflow("2")` and the global log has length 1.  The code skips
every `emit` statement (`execute_method_logic` marks them "temporarily"
skipped) and `call_method` never writes the event log or the result's
`events` field, so after three `bump()` calls both the per-call list and the
global log are empty, for every float model. -/
theorem c2_bump_emits_no_events {F : Type} (fm : FloatModel F) :
    ((call_method fm (freshRuntime bumpProtocol) "bump" []).bind fun r1 =>
     (call_method fm r1.2 "bump" []).bind fun r2 =>
     (call_method fm r2.2 "bump" []).map fun r3 =>
       (r3.1.success, r3.1.events, r3.2.eventLog.length)) =
      some (true, [], 0) :=
  rfl

theorem restoreEntries_map (store : VMap) (acc : VMap) :
    restoreEntries acc (store.map (fun p =>
        (p.1, Json.obj [("type", Json.num p.2.type), ("value", Json.str p.2.value)]))) =
      some (true, store.foldl (fun a p => mapSet a p.1 p.2) acc) := by
  induction store generalizing acc with
  | nil => rfl
  | cons p rest ih =>
    obtain ⟨k, t, v⟩ := p
    have hstep : restoreEntries acc
        ((k, Json.obj [("type", Json.num t), ("value", Json.str v)]) ::
          rest.map (fun p =>
            (p.1, Json.obj [("type", Json.num p.2.type), ("value", Json.str p.2.value)]))) =
        restoreEntries (mapSet acc k ⟨t, v⟩) (rest.map (fun p =>
          (p.1, Json.obj [("type", Json.num p.2.type), ("value", Json.str p.2.value)]))) := rfl
    rw [List.map_cons, hstep, ih, List.foldl_cons]

/-- C3.  A snapshot round-trip reproduces the runtime exactly: for every
runtime whose store satisfies the `std::map` key-ordering invariant,
`restore_from_snapshot` applied to the snapshot `create_snapshot` just
produced succeeds and leaves the state and the event log (timestamps
included, which is stronger than the claim's timestamp-excluded comparison)
exactly as they were; likewise the store-level
`MemoryStateStore::create_snapshot`/`restore_from_snapshot` pair rebuilds an
identical store. -/
theorem c3_snapshot_roundtrip :
    (∀ (rt : Runtime) (ts bh : String), SortedKeys rt.state →
      restore_from_snapshot rt (create_snapshot rt ts bh) = (true, rt)) ∧
    (∀ (store : VMap) (ts : String), SortedKeys store →
      store_restore_from_snapshot store (store_create_snapshot store ts) =
        some (true, store)) := by
  constructor
  · intro rt ts bh hs
    unfold restore_from_snapshot create_snapshot
    rw [foldl_mapSet_self_of_sorted hs]
  · intro store ts hs
    have hred : store_restore_from_snapshot store (store_create_snapshot store ts) =
        restoreEntries [] (store.map (fun p =>
          (p.1, Json.obj [("type", Json.num p.2.type), ("value", Json.str p.2.value)]))) := rfl
    rw [hred, restoreEntries_map, foldl_mapSet_rebuild hs]

/-- Witness for C3 at a concrete runtime and store. -/
theorem c3_snapshot_roundtrip_witness :
    restore_from_snapshot
        { protocol := some counterProtocol, state := [("a", "1"), ("b", "2")],
          params := [], eventLog := [⟨"E", ["x"], "t0"⟩] }
        (create_snapshot
          { protocol := some counterProtocol, state := [("a", "1"), ("b", "2")],
            params := [], eventLog := [⟨"E", ["x"], "t0"⟩] } "t1" "7") =
      (true,
        { protocol := some counterProtocol, state := [("a", "1"), ("b", "2")],
          params := [], eventLog := [⟨"E", ["x"], "t0"⟩] }) ∧
    store_restore_from_snapshot [("k", ⟨1, "5"⟩)]
        (store_create_snapshot [("k", ⟨1, "5"⟩)] "t2") =
      some (true, [("k", ⟨1, "5"⟩)]) :=
  ⟨c3_snapshot_roundtrip.1 _ "t1" "7" (by
      constructor
      · intro q hq
        simp at hq
        subst hq
        decide
      · simp [SortedKeys]),
   c3_snapshot_roundtrip.2 _ "t2" (by simp [SortedKeys])⟩

/-- C4.  Arity enforcement: with a protocol loaded and a method `m` found,
any argument list whose length differs from the declared parameter count
makes `call_method` return `success = false` with the arity error message,
and the returned runtime — store, parameter frame and event log — is exactly
the one the call started from. -/
theorem c4_arity_mismatch {F : Type} (fm : FloatModel F) (rt : Runtime)
    (pr : CarProtocol) (method_name : String) (m : Method) (args : List String)
    (hp : rt.protocol = some pr)
    (hm : mapGet pr.cpl.methods method_name = some m)
    (ha : args.length ≠ m.params.length) :
    call_method fm rt method_name args =
      some ({ success := false, return_value := "", events := [],
              error_message := "Parameter count mismatch. Expected " ++
                toString m.params.length ++ ", got " ++ toString args.length },
            rt) := by
  unfold call_method
  rw [hp]
  simp [hm, ha]

/-- Witness for C4: scenario S4, `set_msg` called with zero arguments. -/
theorem c4_arity_mismatch_witness :
    call_method unitFloatModel (freshRuntime helloProtocol) "set_msg" [] =
      some ({ success := false, return_value := "", events := [],
              error_message := "Parameter count mismatch. Expected 1, got 0" },
            freshRuntime helloProtocol) :=
  c4_arity_mismatch unitFloatModel (freshRuntime helloProtocol) helloProtocol
    "set_msg" ⟨["new_msg"], "state.msg = params.new_msg", ""⟩ [] rfl rfl (by decide)

/-- C5, counterexample.  The claim asserts that evaluating the binary `%`
operator is total for all operand pairs, including a right operand whose
integer parse is 0.  It is not: `string_to_int("1") % string_to_int("0")`
is an integer division by zero, undefined behaviour in C++ (in practice a
fatal trap), modelled as `none`. -/
theorem c5_mod_by_zero_counterexample :
    execute_binary_op unitFloatModel [] [] .MOD "1" "0" = none ∧
    string_to_int "0" = 0 :=
  ⟨rfl, rfl⟩

/-- C5, amended.  `call_method` itself never reaches undefined behaviour —
for every float model, runtime and argument list it returns a defined
`MethodResult` (errors such as a missing method or an arity mismatch are
surfaced in it with `success = false`), because `parse_expression` never
constructs a `%` node.  The `%` implementation itself is total exactly away
from the undefined cases: whenever the right operand does not parse to `0`
and the pair is not `INT_MIN % -1`, it produces a result string. -/
theorem c5_call_method_never_aborts_amended :
    (∀ (F : Type) (fm : FloatModel F) (rt : Runtime) (method_name : String)
        (args : List String), (call_method fm rt method_name args).isSome) ∧
    (∀ (F : Type) (fm : FloatModel F) (ps st : SMap) (l r : String),
        string_to_int r ≠ 0 →
        ¬(string_to_int l = -2147483648 ∧ string_to_int r = -1) →
        (execute_binary_op fm ps st .MOD l r).isSome) := by
  constructor
  · intro F fm rt method_name args
    exact call_method_isSome fm rt method_name args
  · intro F fm ps st l r hb hc
    simp only [execute_binary_op]
    rw [if_neg hb, if_neg hc]
    rfl

/-- Witness for C5 at concrete inputs. -/
theorem c5_call_method_never_aborts_witness :
    (call_method unitFloatModel (freshRuntime helloProtocol) "get_msg" []).isSome ∧
    (execute_binary_op unitFloatModel [] [] .MOD "7" "3").isSome :=
  ⟨c5_call_method_never_aborts_amended.1 Unit unitFloatModel
      (freshRuntime helloProtocol) "get_msg" [],
   c5_call_method_never_aborts_amended.2 Unit unitFloatModel [] [] "7" "3"
      (by decide) (by decide)⟩

theorem charsPrefix_append (l m : List Char) : charsPrefix l (l ++ m) = true := by
  induction l with
  | nil => rfl
  | cons a t ih => simp [charsPrefix, ih]

theorem strHasPrefix_append (p X : String) : strHasPrefix p (p ++ X) = true := by
  unfold strHasPrefix
  rw [String.data_append]
  exact charsPrefix_append p.data X.data

theorem strDrop_state_prefix (X : String) : strDrop 6 ("state." ++ X) = X := by
  cases X with
  | mk d =>
    show String.mk ((("state." ++ String.mk d).data).drop 6) = String.mk d
    rw [String.data_append]
    rfl

theorem str_ne_self_append_x (w : String) : w ≠ w ++ "x" := by
  intro h
  have h2 := congrArg (fun s => s.data.length) h
  simp [String.data_append] at h2

/-- C6.  Resolver namespacing, in four parts: (1) a bare read tries the
parameter frame and falls back to the store with `""` for a missing key;
(2) a `state.X` write always goes to the store entry `X`; (3) such a write
is observable through a subsequent bare-`X` read for every written value
exactly when the frame holds no parameter named `X`; (4) scenario S6:
`who("arg")` returns `"arg"` while `get_state("x")` stays `"store"`, for
every float model. -/
theorem c6_resolver_namespacing :
    (∀ (ps st : SMap) (X : String),
        strHasPrefix "params." X = false → strHasPrefix "state." X = false →
        resolve_variable ps st X =
          (match mapGet ps X with
           | some w => w
           | none => get_string st X "")) ∧
    (∀ (ps st : SMap) (X v : String),
        set_variable ps st ("state." ++ X) v = (ps, mapSet st X v)) ∧
    (∀ (ps st : SMap) (X : String),
        strHasPrefix "params." X = false → strHasPrefix "state." X = false →
        ((∀ v, resolve_variable ps (mapSet st X v) X = v) ↔ mapGet ps X = none)) ∧
    (∀ (F : Type) (fm : FloatModel F),
        ((call_method fm (freshRuntime whoProtocol) "who" ["arg"]).map fun r =>
          (r.1.success, r.1.return_value, r.2.get_state "x")) =
          some (true, "arg", "store")) := by
  refine ⟨?_, ?_, ?_, ?_⟩
  · intro ps st X h1 h2
    simp only [resolve_variable, h1, h2, Bool.false_eq_true, if_false]
  · intro ps st X v
    simp only [set_variable, strHasPrefix_append "state." X, if_true,
      strDrop_state_prefix]
  · intro ps st X h1 h2
    constructor
    · intro hall
      cases h : mapGet ps X with
      | none => rfl
      | some w =>
        have hw := hall (w ++ "x")
        simp only [resolve_variable, h1, h2, Bool.false_eq_true, if_false, h] at hw
        exact absurd hw (str_ne_self_append_x w)
    · intro hnone v
      simp only [resolve_variable, h1, h2, Bool.false_eq_true, if_false, hnone,
        get_string, mapGet_mapSet_self]
  · intro F fm
    rfl

/-- Witness for C6 at concrete frames, stores and names. -/
theorem c6_resolver_namespacing_witness :
    resolve_variable [("x", "w")] [("x", "s")] "x" = "w" ∧
    set_variable [] [] ("state." ++ "k") "7" = ([], [("k", "7")]) ∧
    resolve_variable [] (mapSet [] "y" "val") "y" = "val" ∧
    ((call_method unitFloatModel (freshRuntime whoProtocol) "who" ["arg"]).map fun r =>
      (r.1.success, r.1.return_value, r.2.get_state "x")) =
      some (true, "arg", "store") :=
  ⟨c6_resolver_namespacing.1 [("x", "w")] [("x", "s")] "x" rfl rfl,
   c6_resolver_namespacing.2.1 [] [] "k" "7",
   (c6_resolver_namespacing.2.2.1 [] [] "y" rfl rfl).mpr rfl "val",
   c6_resolver_namespacing.2.2.2 Unit unitFloatModel⟩

/-- C7, counterexample.  The claim asserts that a parameter bound during one
call is not visible during a later call of a method that does not declare a
parameter of that name.  It is visible: after `who("arg")` a call of the
parameterless `peek()`, whose returns expression reads `params.x`, yields
the stale value `"arg"` rather than the empty string. -/
theorem c7_stale_parameter_counterexample :
    ((call_method unitFloatModel (freshRuntime whoPeekProtocol) "who" ["arg"]).bind fun r1 =>
     (call_method unitFloatModel r1.2 "peek" []).map fun r2 =>
       (r2.1.success, r2.1.return_value)) = some (true, "arg") ∧
    ("arg" : String) ≠ "" :=
  ⟨rfl, by decide⟩

/-- C7, amended.  The parameter frame is populated before each call by
overwriting the called method's declared parameters only and is never
cleared between calls: the binding loop leaves every frame entry whose name
the method does not declare untouched, so a parameter bound in an earlier
call stays visible in a later call of a method that does not declare (or
overwrite) it — concretely, after `who("arg")` the call `peek()` returns
the stale `"arg"` through `params.x`, for every float model. -/
theorem c7_frame_persists_amended :
    (∀ (frame : SMap) (names args : List String) (x : String), x ∉ names →
        mapGet (bindParams frame names args) x = mapGet frame x) ∧
    (∀ (F : Type) (fm : FloatModel F),
        ((call_method fm (freshRuntime whoPeekProtocol) "who" ["arg"]).bind fun r1 =>
         (call_method fm r1.2 "peek" []).map fun r2 =>
           (r2.1.return_value, mapGet r2.2.params "x")) =
          some ("arg", some "arg")) := by
  constructor
  · intro frame names args x hx
    exact mapGet_bindParams_not_mem frame names args hx
  · intro F fm
    rfl

/-- Witness for C7 at a concrete frame: binding `y` leaves the stale entry
for `x` in place. -/
theorem c7_frame_persists_witness :
    mapGet (bindParams [("x", "old")] ["y"] ["new"]) "x" = some "old" ∧
    ((call_method unitFloatModel (freshRuntime whoPeekProtocol) "who" ["arg"]).bind fun r1 =>
     (call_method unitFloatModel r1.2 "peek" []).map fun r2 =>
       (r2.1.return_value, mapGet r2.2.params "x")) =
      some ("arg", some "arg") :=
  ⟨c7_frame_persists_amended.1 [("x", "old")] ["y"] ["new"] "x" (by decide),
   c7_frame_persists_amended.2 Unit unitFloatModel⟩

/-- C8, counterexample.  The claim asserts that a malformed snapshot makes
`restore_from_snapshot` return `false` with the store's contents identical
to what they were.  With a `state` entry whose `type` field has the wrong
JSON type the restore does return `false`, but the store — previously
holding the key `a` — has already been cleared and is empty afterwards. -/
theorem c8_malformed_snapshot_counterexample :
    store_restore_from_snapshot [("a", ⟨0, "1"⟩)]
        (Json.obj [("state", Json.obj
          [("b", Json.obj [("type", Json.str "oops"), ("value", Json.str "2")])])]) =
      some (false, []) ∧
    ([] : VMap) ≠ [("a", ⟨0, "1"⟩)] :=
  ⟨rfl, by decide⟩

/-- C8, amended.  `restore_from_snapshot` does return `false` on malformed
input, but only the missing-`state` case leaves the store untouched: when a
`state` entry carries a wrongly-typed `type` field, the store has already
been cleared (and repopulated only with the entries preceding the bad one),
so its contents are in general not what they were before the call.  (An
entry lacking a `type` or `value` field altogether dereferences a missing
key through the `const` `operator[]`, which is undefined behaviour.) -/
theorem c8_restore_amended :
    (∀ (store : VMap) (fields : List (String × Json)),
        mapGet fields "state" = none →
        store_restore_from_snapshot store (Json.obj fields) = some (false, store)) ∧
    (∀ (store : VMap) (fields entries efields : List (String × Json))
        (k : String) (tj : Json),
        mapGet fields "state" = some (Json.obj ((k, Json.obj efields) :: entries)) →
        mapGet efields "type" = some tj →
        asInt tj = none →
        store_restore_from_snapshot store (Json.obj fields) = some (false, [])) := by
  constructor
  · intro store fields h
    simp [store_restore_from_snapshot, h]
  · intro store fields entries efields k tj hs ht hi
    simp [store_restore_from_snapshot, hs, jitems, restoreEntries, ht, hi]

/-- Witness for C8 at concrete snapshots. -/
theorem c8_restore_amended_witness :
    store_restore_from_snapshot [("a", ⟨0, "1"⟩)] (Json.obj [("x", Json.null)]) =
      some (false, [("a", ⟨0, "1"⟩)]) ∧
    store_restore_from_snapshot [("z", ⟨1, "9"⟩)]
        (Json.obj [("state", Json.obj
          [("e", Json.obj [("type", Json.bool true), ("value", Json.str "2")])])]) =
      some (false, []) :=
  ⟨c8_restore_amended.1 [("a", ⟨0, "1"⟩)] [("x", Json.null)] rfl,
   c8_restore_amended.2 [("z", ⟨1, "9"⟩)]
     [("state", Json.obj
       [("e", Json.obj [("type", Json.bool true), ("value", Json.str "2")])])]
     [] [("type", Json.bool true), ("value", Json.str "2")] "e" (Json.bool true)
     rfl rfl rfl⟩

theorem load_from_json_decomp {hasher : Json → String} {j : Json} {P : CarProtocol}
    (h : load_from_json hasher j = some P) :
    ∃ p op protocol version hash0 signature cpl,
      jvalueStr j "p" "" = some p ∧
      jvalueStr j "op" "" = some op ∧
      jvalueStr j "protocol" "" = some protocol ∧
      jvalueStr j "version" "" = some version ∧
      jvalueStr j "hash" "" = some hash0 ∧
      jvalueStr j "signature" "" = some signature ∧
      parse_cpl j = some cpl ∧
      P = ⟨p, op, protocol, version, cpl, generate_abi cpl protocol version,
           (if hash0 == "" then hasher j else hash0), signature⟩ := by
  unfold load_from_json at h
  split at h
  · exact absurd h (by simp)
  · rename_i p hp
    split at h
    · exact absurd h (by simp)
    · rename_i op hop
      split at h
      · exact absurd h (by simp)
      · rename_i pr hpr
        split at h
        · exact absurd h (by simp)
        · rename_i ver hver
          split at h
          · exact absurd h (by simp)
          · rename_i h0 hh0
            split at h
            · exact absurd h (by simp)
            · rename_i sg hsg
              split at h
              · exact absurd h (by simp)
              · rename_i cpl hcpl
                exact ⟨p, op, pr, ver, h0, sg, cpl, hp, hop, hpr, hver, hh0,
                  hsg, hcpl, (Option.some.inj h).symm⟩

/-- C9.  ABI determinism: (1) every protocol `load_from_json` produces
carries exactly `generate_abi` of its CPL, protocol name and version — the
ABI is a pure function of those three inputs; (2) loading the same document
twice, even under different content-hash functions, yields equal ABI JSON
(hence byte-identical output under the deterministic serializer) and equal
CPL, name and version; (3) `load_from_json` is deterministic outright. -/
theorem c9_abi_determinism :
    (∀ (hasher : Json → String) (j : Json) (P : CarProtocol),
        load_from_json hasher j = some P →
        P.abi = generate_abi P.cpl P.protocol P.version) ∧
    (∀ (h1 h2 : Json → String) (j : Json) (P1 P2 : CarProtocol),
        load_from_json h1 j = some P1 → load_from_json h2 j = some P2 →
        P1.abi = P2.abi ∧ P1.cpl = P2.cpl ∧ P1.protocol = P2.protocol ∧
          P1.version = P2.version) ∧
    (∀ (hasher : Json → String) (j : Json) (P1 P2 : CarProtocol),
        load_from_json hasher j = some P1 → load_from_json hasher j = some P2 →
        P1 = P2) := by
  refine ⟨?_, ?_, ?_⟩
  · intro hasher j P h
    obtain ⟨p, op, pr, ver, h0, sg, cpl, _, _, _, _, _, _, _, hP⟩ :=
      load_from_json_decomp h
    subst hP
    rfl
  · intro h1 h2 j P1 P2 hl1 hl2
    obtain ⟨p1, op1, pr1, ver1, h01, sg1, cpl1, hp1, hop1, hpr1, hver1, hh1,
      hsg1, hcpl1, hP1⟩ := load_from_json_decomp hl1
    obtain ⟨p2, op2, pr2, ver2, h02, sg2, cpl2, hp2, hop2, hpr2, hver2, hh2,
      hsg2, hcpl2, hP2⟩ := load_from_json_decomp hl2
    subst hP1
    subst hP2
    have ecpl : cpl1 = cpl2 := Option.some.inj (hcpl1.symm.trans hcpl2)
    have epr : pr1 = pr2 := Option.some.inj (hpr1.symm.trans hpr2)
    have ever : ver1 = ver2 := Option.some.inj (hver1.symm.trans hver2)
    subst ecpl
    subst epr
    subst ever
    exact ⟨rfl, rfl, rfl, rfl⟩
  · intro hasher j P1 P2 hl1 hl2
    exact Option.some.inj (hl1.symm.trans hl2)

/-- Witness for C9: the demo document, loaded under two different hash
functions, yields the same ABI, which is `generate_abi` of its parts. -/
theorem c9_abi_determinism_witness :
    demoProtocol.abi =
      generate_abi demoProtocol.cpl demoProtocol.protocol demoProtocol.version ∧
    demoProtocol.abi = ({ demoProtocol with hash := "zz" } : CarProtocol).abi :=
  ⟨c9_abi_determinism.1 trivialHasher demoDoc demoProtocol rfl,
   (c9_abi_determinism.2.1 trivialHasher (fun _ => "zz") demoDoc demoProtocol
      { demoProtocol with hash := "zz" } rfl rfl).1⟩

/-- C10, counterexample.  The claim asserts that after any failed load
`get_protocol_name()` returns the empty string.  After a validation failure
it does not: loading a document whose `protocol` field is `"bad"` but whose
`cpl.owner` is empty fails, yet the freshly parsed (invalid) protocol has
already replaced the old one, so `get_protocol_name()` returns `"bad"`.
The state store does keep the old protocol's values (`msg` is still
`"old"`). -/
theorem c10_validation_failure_counterexample :
    (load_protocol_from_json trivialHasher
        (set_state (freshRuntime helloProtocol) "msg" "old") (some badOwnerDoc)).1 =
      false ∧
    (load_protocol_from_json trivialHasher
        (set_state (freshRuntime helloProtocol) "msg" "old")
        (some badOwnerDoc)).2.get_protocol_name = "bad" ∧
    ("bad" : String) ≠ "" ∧
    (load_protocol_from_json trivialHasher
        (set_state (freshRuntime helloProtocol) "msg" "old")
        (some badOwnerDoc)).2.get_state "msg" = "old" :=
  ⟨rfl, rfl, by decide, rfl⟩

/-- C10, amended.  A failed load always drops the previously loaded
protocol, but what replaces it depends on the failure: (1) after a JSON
parse failure the runtime holds no protocol, so `get_protocol_name()`
returns `""`; (2) the same holds when the parsed document makes the loader
throw; (3) after a validation failure the runtime holds the new, invalid
protocol and `get_protocol_name()` returns that document's `protocol`
field.  In every case the state store and event log are untouched, because
`reset_state` is only invoked after a successful validation; and (4)
`reset_state` is indeed a no-op when no protocol is loaded. -/
theorem c10_failed_load_amended :
    (∀ (hasher : Json → String) (rt : Runtime),
        load_protocol_from_json hasher rt none =
          (false, { rt with protocol := none })) ∧
    (∀ (hasher : Json → String) (rt : Runtime) (j : Json),
        load_from_json hasher j = none →
        load_protocol_from_json hasher rt (some j) =
          (false, { rt with protocol := none })) ∧
    (∀ (hasher : Json → String) (rt : Runtime) (j : Json) (P : CarProtocol),
        load_from_json hasher j = some P → validate_protocol P = false →
        load_protocol_from_json hasher rt (some j) =
          (false, { rt with protocol := some P }) ∧
        ({ rt with protocol := some P } : Runtime).get_protocol_name = P.protocol ∧
        ({ rt with protocol := some P } : Runtime).state = rt.state ∧
        ({ rt with protocol := some P } : Runtime).eventLog = rt.eventLog) ∧
    (∀ rt : Runtime, rt.protocol = none → reset_state rt = rt) := by
  refine ⟨?_, ?_, ?_, ?_⟩
  · intro hasher rt
    rfl
  · intro hasher rt j h
    simp [load_protocol_from_json, h]
  · intro hasher rt j P h hv
    refine ⟨?_, rfl, rfl, rfl⟩
    simp [load_protocol_from_json, h, hv]
  · intro rt h
    simp [reset_state, h]

/-- Witness for C10 at concrete runtimes and documents. -/
theorem c10_failed_load_amended_witness :
    load_protocol_from_json trivialHasher (freshRuntime helloProtocol) none =
      (false, { freshRuntime helloProtocol with protocol := none }) ∧
    load_protocol_from_json trivialHasher
        (set_state (freshRuntime helloProtocol) "msg" "old") (some badOwnerDoc) =
      (false, { set_state (freshRuntime helloProtocol) "msg" "old" with
                protocol := some badOwnerProtocol }) ∧
    reset_state { protocol := none, state := [("k", "v")], params := [],
                  eventLog := [] } =
      { protocol := none, state := [("k", "v")], params := [], eventLog := [] } :=
  ⟨c10_failed_load_amended.1 trivialHasher (freshRuntime helloProtocol),
   (c10_failed_load_amended.2.2.1 trivialHasher
      (set_state (freshRuntime helloProtocol) "msg" "old") badOwnerDoc
      badOwnerProtocol rfl rfl).1,
   c10_failed_load_amended.2.2.2 _ rfl⟩

end Cardity
